import Mathlib

/-! Shallow embedding of the RTL transformation core of the ppt-translator
repository: `src/translator/visual_engine.py`, `src/translator/content_processor.py`
and `src/translator/chart_processor.py`.

Modelling conventions:
* Python integers are modelled as `Int` (they are arbitrary precision).
* Python float arithmetic in the classifier heuristics (the `width / height`
  aspect ratio and the `0.15` / `0.1` size and margin thresholds) is modelled
  exactly over `ℚ`.
* XML option structure is modelled directly: an optional element or attribute
  becomes an `Option` field.  Attribute defaulting such as `off.get("x", "0")`
  is applied at model-construction time, so an `a:off` element is a pair of
  its effective `x`/`y` values.
* lxml trees are mutated in place; the embedding is state passing: each
  processing function consumes a node and returns the updated node.
* The engine iterates a container's children by tag (`p:sp`, then `p:pic`,
  then `p:cxnSp`, then `p:grpSp`, then `p:graphicFrame`); since every child is
  processed independently of its siblings, this is modelled as a single
  structural map over the ordered child list.
-/

namespace PptTranslator

/-- `mirror_x` from `visual_engine.py` (module level): mirror an X coordinate
within a coordinate space. -/
def mirror_x (x width space_width space_offset : Int) : Int :=
  let relative_x := x - space_offset
  let new_relative_x := space_width - (relative_x + width)
  space_offset + new_relative_x

/-- `BoundingBox` dataclass from `visual_engine.py`: a shape's position and
size in EMUs. -/
structure BoundingBox where
  x : Int
  y : Int
  width : Int
  height : Int
deriving Repr, DecidableEq

/-- `BoundingBox.right_edge` property. -/
def BoundingBox.right_edge (b : BoundingBox) : Int := b.x + b.width

/- `BoundingBox.aspect_ratio` (`width / height if height > 0 else 0`) is a
float; all of its uses are threshold comparisons, which are modelled below as
the equivalent exact integer inequalities: for `height > 0`,
`0.5 <= width/height` iff `height <= 2 * width`, `width/height <= 2.0` iff
`width <= 2 * height`, and `width/height > 1.5` iff `2 * width > 3 * height`;
for `height <= 0` the ratio is `0`.  Likewise `width < slide_width * 0.15`
is modelled as `100 * width < 15 * slide_width`, `x < slide_width * 0.1` as
`10 * x < slide_width`, and `right_edge > slide_width - slide_width * 0.1` as
`10 * right_edge > 9 * slide_width`. -/

/-- Python's `s.lower()`. -/
def strLower (s : String) : String := ⟨s.data.map Char.toLower⟩

/-- Substring search on character lists: does `pat` occur in the list? -/
def subSearch (pat : List Char) : List Char → Bool
  | [] => pat.isEmpty
  | l@(_ :: rest) => pat.isPrefixOf l || subSearch pat rest

/-- Python's `pat in s` substring test on strings. -/
def strContains (s pat : String) : Bool := subSearch pat.data s.data

/-- `t.text and t.text.strip()` truthiness: the string has at least one
non-whitespace character. -/
def hasNonWS (s : String) : Bool := s.data.any (fun c => !c.isWhitespace)

/-- `RTLVisualEngine.ARROW_GEOMETRIES`: preset geometries that get flipped. -/
def ARROW_GEOMETRIES : List String :=
  ["chevron", "homePlate", "leftArrow", "rightArrow",
   "stripedRightArrow", "bentArrow", "curvedRightArrow",
   "curvedLeftArrow", "notchedRightArrow", "leftRightArrow",
   "flowChartOffpageConnector"]

/-- `RTLVisualEngine.LOGO_KEYWORDS`: name keywords marking a logo. -/
def LOGO_KEYWORDS : List String :=
  ["logo", "watermark", "brand", "trademark", "icon",
   "emblem", "badge", "seal", "copyright"]

/-- `RTLVisualEngine.DEFAULT_SLIDE_WIDTH`. -/
def DEFAULT_SLIDE_WIDTH : Int := 12192000

/-- The per-run engine configuration resolved in `RTLVisualEngine.__init__`:
`slide_width` (from `presentation.xml` or the default) and the precomputed
`flip_threshold = int(slide_width * layout_flip_ratio)`, plus the
`flip_connectors` constructor flag. -/
structure EngineConfig where
  slide_width : Int
  flip_threshold : Int
  flip_connectors : Bool
deriving Repr, DecidableEq

/-- The configuration of the engine as constructed by the repository's entry
points: default slide width, `layout_flip_ratio = 0.4` (so
`flip_threshold = int(12192000 * 0.4) = 4876800`), `flip_connectors = True`. -/
def default_engine_config : EngineConfig :=
  { slide_width := 12192000, flip_threshold := 4876800, flip_connectors := true }

/- ============================================================
   Text body model (`a:txBody` substructure used by both the visual engine
   and the content processor).
   ============================================================ -/

/-- An `a:latin` or `a:cs` font element: `typeface`, `pitchFamily`, `charset`
attributes. -/
structure FontSpec where
  typeface : Option String
  pitchFamily : Option String
  charset : Option String
deriving Repr, DecidableEq

/-- An `a:rPr` run-properties element, restricted to the attributes and child
elements the repository reads or writes. -/
structure RPr where
  lang : Option String
  b : Option String
  dirty : Option String
  latin : Option FontSpec
  cs : Option FontSpec
deriving Repr, DecidableEq

/-- A freshly created `a:rPr` element (no attributes, no children). -/
def RPr.empty : RPr := ⟨none, none, none, none, none⟩

/-- An `a:r` run: optional `a:rPr` and optional `a:t` text child. -/
structure Run where
  rPr : Option RPr
  t : Option String
deriving Repr, DecidableEq

/-- An `a:pPr` paragraph-properties element, restricted to what the repository
touches: `algn`, `rtl`, `lvl` attributes and the `a:defRPr` child. -/
structure PPr where
  algn : Option String
  rtl : Option String
  lvl : Option String
  defRPr : Option RPr
deriving Repr, DecidableEq

/-- A freshly created `a:pPr` element. -/
def PPr.empty : PPr := ⟨none, none, none, none⟩

/-- An `a:p` paragraph: optional `a:pPr`, the ordered `a:r` runs, and the
texts of `a:t` nodes sitting inside `a:fld` children (read by the `.//a:t`
text scan but never rewritten by injection). -/
structure Paragraph where
  pPr : Option PPr
  runs : List Run
  fldTexts : List String
deriving Repr, DecidableEq

/-- An `a:bodyPr` element (only the `rtlCol` attribute is touched). -/
structure BodyPr where
  rtlCol : Option String
deriving Repr, DecidableEq

/-- A `p:txBody` / `a:txBody` element: optional `a:bodyPr` and paragraphs. -/
structure TxBody where
  bodyPr : Option BodyPr
  paragraphs : List Paragraph
deriving Repr, DecidableEq

/-- All `a:t` texts below a paragraph (run texts and field texts), as scanned
by `tx_body.findall(".//a:t")`. -/
def Paragraph.tTexts (p : Paragraph) : List String :=
  p.runs.filterMap (fun r => r.t) ++ p.fldTexts

/-- All `a:t` texts below a text body. -/
def TxBody.tTexts (tb : TxBody) : List String :=
  (tb.paragraphs.map Paragraph.tTexts).flatten

/-- `any(t.text and t.text.strip() for t in tx_body.findall(".//a:t"))` from
`_should_flip_shape`. -/
def TxBody.hasRealText (tb : TxBody) : Bool := tb.tTexts.any hasNonWS

/- ============================================================
   Geometry model (`a:xfrm` substructure).
   ============================================================ -/

/-- An `a:xfrm` transform of a non-group element: optional `a:off` (x, y),
optional `a:ext` (cx, cy), `flipH` attribute (absent modelled as `false`,
matching the `get("flipH", "0")` default). -/
structure Xfrm where
  off : Option (Int × Int)
  ext : Option (Int × Int)
  flipH : Bool
deriving Repr, DecidableEq

/-- The `a:xfrm` of a `p:grpSpPr`: additionally carries the child coordinate
space declaration.  `chOff` is the effective `x` of an `a:chOff` element when
present; `chExt` is `some cx?` when an `a:chExt` element is present, where the
inner option is its `cx` attribute (read with default `group_width`). -/
structure GrpXfrm where
  off : Option (Int × Int)
  ext : Option (Int × Int)
  chOff : Option Int
  chExt : Option (Option Int)
  flipH : Bool
deriving Repr, DecidableEq

/-- A `p:cNvPr` element: stable shape `id` and display `name`. -/
structure CNvPr where
  id : String
  name : String
deriving Repr, DecidableEq

/-- An `a:tc` table cell (only its optional `a:txBody` is processed). -/
structure TableCell where
  txBody : Option TxBody
deriving Repr, DecidableEq

/-- An `a:tr` table row: ordered cells. -/
structure TableRow where
  cells : List TableCell
deriving Repr, DecidableEq

/-- An `a:tbl` table: the `a:gridCol` width list and the rows. -/
structure Table where
  gridCols : List Int
  rows : List TableRow
deriving Repr, DecidableEq

/-- A node of the slide shape tree (`p:spTree` descendants), the closed
tagged-variant counterpart of the tag dispatch in `_process_container`:
`p:sp`, `p:pic`, `p:cxnSp`, `p:grpSp`, `p:graphicFrame`.  A `graphicFrame`
carries the `uri` of its `a:graphicData` (empty when the `a:graphic` chain is
absent) and its embedded `a:tbl` when there is one. -/
inductive ShapeElem where
  | sp (cNvPr : Option CNvPr) (xfrm : Option Xfrm) (prstGeom : Option String)
      (txBody : Option TxBody)
  | pic (cNvPr : Option CNvPr) (xfrm : Option Xfrm)
  | cxnSp (xfrm : Option Xfrm)
  | grpSp (xfrm : Option GrpXfrm) (children : List ShapeElem)
  | graphicFrame (xfrm : Option Xfrm) (uri : String) (table : Option Table)

/- ============================================================
   Visual engine: classifier.
   ============================================================ -/

/-- `RTLVisualEngine._is_likely_logo`.  `is_picture` is the
`element.tag.endswith("}pic")` check. -/
def is_likely_logo (slide_width : Int) (is_picture : Bool) (name : String)
    (bbox : BoundingBox) : Bool :=
  let name_lower := strLower name
  if LOGO_KEYWORDS.any (fun keyword => strContains name_lower keyword) then
    true
  else
    let is_small : Bool := decide (100 * bbox.width < 15 * slide_width)
    let in_left_margin : Bool := decide (10 * bbox.x < slide_width)
    let in_right_margin : Bool := decide (10 * bbox.right_edge > 9 * slide_width)
    let in_corner := in_left_margin || in_right_margin
    let is_squarish : Bool :=
      if bbox.height > 0 then
        decide (bbox.height ≤ 2 * bbox.width ∧ bbox.width ≤ 2 * bbox.height)
      else true
    if is_picture && is_small && in_corner then true
    else is_small && in_corner && is_squarish

/-- The logo judgement as the claim words it (spec side, written from the
claim's sentence for comparison with `is_likely_logo`): a brand keyword in the
display name; or a picture that is small (< 15% of page width) and within a
10%-of-page-width margin of either edge; or a non-picture that is small, in
that corner margin, and roughly square (aspect ratio between 0.5 and 2.0). -/
def claimed_logo (slide_width : Int) (is_picture : Bool) (name : String)
    (bbox : BoundingBox) : Bool :=
  let name_lower := strLower name
  let keyword_hit := LOGO_KEYWORDS.any (fun keyword => strContains name_lower keyword)
  let is_small : Bool := decide (100 * bbox.width < 15 * slide_width)
  let in_left_margin : Bool := decide (10 * bbox.x < slide_width)
  let in_right_margin : Bool := decide (10 * bbox.right_edge > 9 * slide_width)
  let in_corner := in_left_margin || in_right_margin
  let is_squarish : Bool :=
    if bbox.height > 0 then
      decide (bbox.height ≤ 2 * bbox.width ∧ bbox.width ≤ 2 * bbox.height)
    else true
  keyword_hit || (is_picture && is_small && in_corner) ||
    (!is_picture && is_small && in_corner && is_squarish)

/-- `RTLVisualEngine._should_flip_shape`, as a pure function of the parts of
the `p:sp` element it inspects (`p:txBody`, `.//a:prstGeom`), the bounding box
and the name.  Only ever called on `p:sp` elements, whose tag does not end in
`}pic`. -/
def should_flip_shape (cfg : EngineConfig) (txBody : Option TxBody)
    (prstGeom : Option String) (bbox : BoundingBox) (name : String) : Bool :=
  let has_text :=
    match txBody with
    | some tb => tb.hasRealText
    | none => false
  if has_text then false
  else if is_likely_logo cfg.slide_width false name bbox then false
  else if (match prstGeom with
           | some geom_type => ARROW_GEOMETRIES.contains geom_type
           | none => false) then true
  else
    let is_very_wide : Bool := decide (bbox.width ≥ cfg.flip_threshold)
    let is_wide_aspect : Bool :=
      decide (bbox.height > 0 ∧ 2 * bbox.width > 3 * bbox.height)
    is_very_wide && is_wide_aspect

/- ============================================================
   Visual engine: text directionality rewriter.
   ============================================================ -/

/-- The `arabic_fonts` allow-list inside `_process_run`. -/
def arabic_fonts : List String :=
  ["Simplified Arabic", "Traditional Arabic", "Arabic Typesetting", "Arial"]

/-- `RTLVisualEngine._process_run`. -/
def process_run (r : Run) : Run :=
  let r_pr := r.rPr.getD RPr.empty
  let r_pr := { r_pr with lang := some "ar-SA" }
  let r_pr :=
    match r_pr.latin, r_pr.cs with
    | none, none =>
        { r_pr with
          cs := some { typeface := some "Simplified Arabic",
                       pitchFamily := some "34", charset := some "178" },
          latin := some { typeface := some "Arial",
                          pitchFamily := some "34", charset := some "0" } }
    | some _, none =>
        { r_pr with
          cs := some { typeface := some "Simplified Arabic",
                       pitchFamily := some "34", charset := some "178" } }
    | _, some c =>
        let current_typeface := strLower (c.typeface.getD "")
        if (arabic_fonts.map strLower).contains current_typeface then r_pr
        else { r_pr with
               cs := some { c with typeface := some "Simplified Arabic",
                                   charset := some "178" } }
  { r with rPr := some r_pr }

/-- `RTLVisualEngine._process_paragraph`. -/
def process_paragraph (paragraph : Paragraph) : Paragraph :=
  let p_pr := paragraph.pPr.getD PPr.empty
  let p_pr :=
    match p_pr.algn with
    | none => { p_pr with algn := some "r" }
    | some current_align =>
        if current_align = "l" then { p_pr with algn := some "r" }
        else if current_align = "r" then { p_pr with algn := some "l" }
        else p_pr
  let p_pr := { p_pr with rtl := some "1" }
  let runs := paragraph.runs.map process_run
  let def_r_pr := p_pr.defRPr.getD RPr.empty
  let p_pr := { p_pr with defRPr := some { def_r_pr with lang := some "ar-SA" } }
  { paragraph with pPr := some p_pr, runs := runs }

/-- `RTLVisualEngine._process_text_body`. -/
def process_text_body (tx_body : TxBody) : TxBody :=
  let body_pr := tx_body.bodyPr.getD { rtlCol := none }
  { bodyPr := some { body_pr with rtlCol := some "1" },
    paragraphs := tx_body.paragraphs.map process_paragraph }

/- ============================================================
   Visual engine: table restructurer.
   ============================================================ -/

/-- Text processing of one table cell. -/
def process_table_cell (tc : TableCell) : TableCell :=
  { txBody := tc.txBody.map process_text_body }

/-- One row of `RTLVisualEngine._process_table`: rows with at most one cell
keep their order, multi-cell rows are reversed; every cell's text body is
rewritten. -/
def process_table_row (tr : TableRow) : TableRow :=
  if tr.cells.length ≤ 1 then
    { cells := tr.cells.map process_table_cell }
  else
    { cells := tr.cells.reverse.map process_table_cell }

/-- `RTLVisualEngine._process_table`: all rows processed; the `a:gridCol`
width list is reversed once when it has more than one entry. -/
def process_table (t : Table) : Table :=
  { rows := t.rows.map process_table_row,
    gridCols := if t.gridCols.length > 1 then t.gridCols.reverse else t.gridCols }

/- ============================================================
   Visual engine: coordinate-space walker.
   ============================================================ -/

/-- `RTLVisualEngine._get_bounding_box`: requires the transform and both its
`a:off` and `a:ext` children. -/
def get_bounding_box (xfrm : Option Xfrm) : Option BoundingBox :=
  match xfrm with
  | none => none
  | some xf =>
      match xf.off, xf.ext with
      | some o, some e => some ⟨o.1, o.2, e.1, e.2⟩
      | _, _ => none

/-- `RTLVisualEngine._set_offset_x`: writes the `x` attribute of `a:off` when
the transform and offset exist. -/
def set_offset_x (xfrm : Option Xfrm) (new_x : Int) : Option Xfrm :=
  xfrm.map fun xf =>
    match xf.off with
    | some o => { xf with off := some (new_x, o.2) }
    | none => xf

/-- `RTLVisualEngine._set_flip_h`: sets `flipH="1"` on the transform. -/
def set_flip_h (xfrm : Option Xfrm) : Option Xfrm :=
  xfrm.map fun xf => { xf with flipH := true }

/-- The connector flip toggle inside `_process_connector`:
`new_flip = "0" if current_flip == "1" else "1"`. -/
def toggle_flip_h (xfrm : Option Xfrm) : Option Xfrm :=
  xfrm.map fun xf => { xf with flipH := !xf.flipH }

/-- `RTLVisualEngine._get_element_name`: the `name` attribute of `p:cNvPr`,
or the empty string. -/
def element_name (cNvPr : Option CNvPr) : String :=
  (cNvPr.map CNvPr.name).getD ""

/-- The child coordinate space `(child_width, child_offset)` computed in
`_process_group`: from `a:chOff`/`a:chExt` when both elements are present
(the `cx` attribute of `a:chExt` defaults to the group's own width),
otherwise the fallback `(group_width, 0)`. -/
def child_space (xfrm : GrpXfrm) (group_width : Int) : Int × Int :=
  match xfrm.chOff, xfrm.chExt with
  | some ch_off, some ch_ext => (ch_ext.getD group_width, ch_off)
  | _, _ => (group_width, 0)

mutual

/-- One element of `RTLVisualEngine._process_container`'s dispatch:
`_process_shape` / `_process_picture` / `_process_connector` /
`_process_group` / `_process_graphicFrame`, given the active coordinate
space `(space_width, space_offset)`. -/
def process_elem (cfg : EngineConfig) (space_width space_offset : Int) :
    ShapeElem → ShapeElem
  | .sp cNvPr xfrm prstGeom txBody =>
      match get_bounding_box xfrm with
      | none => .sp cNvPr xfrm prstGeom txBody
      | some bbox =>
          let name := element_name cNvPr
          let new_x := mirror_x bbox.x bbox.width space_width space_offset
          let xfrm1 := set_offset_x xfrm new_x
          let xfrm2 :=
            if should_flip_shape cfg txBody prstGeom bbox name then
              set_flip_h xfrm1
            else xfrm1
          .sp cNvPr xfrm2 prstGeom (txBody.map process_text_body)
  | .pic cNvPr xfrm =>
      match get_bounding_box xfrm with
      | none => .pic cNvPr xfrm
      | some bbox =>
          .pic cNvPr (set_offset_x xfrm
            (mirror_x bbox.x bbox.width space_width space_offset))
  | .cxnSp xfrm =>
      if cfg.flip_connectors then
        match get_bounding_box xfrm with
        | none => .cxnSp xfrm
        | some bbox =>
            .cxnSp (toggle_flip_h (set_offset_x xfrm
              (mirror_x bbox.x bbox.width space_width space_offset)))
      else .cxnSp xfrm
  | .grpSp xfrm children =>
      match xfrm with
      | none => .grpSp none children
      | some gx =>
          match gx.off, gx.ext with
          | some off, some ext =>
              let group_x := off.1
              let group_width := ext.1
              let new_x := mirror_x group_x group_width space_width space_offset
              let gx1 := { gx with off := some (new_x, off.2) }
              let cs := child_space gx group_width
              .grpSp (some gx1) (process_container cfg cs.1 cs.2 children)
          | _, _ => .grpSp (some gx) children
  | .graphicFrame xfrm uri table =>
      match xfrm with
      | none => .graphicFrame none uri table
      | some xf =>
          match xf.off, xf.ext with
          | some off, some ext =>
              let new_x := mirror_x off.1 ext.1 space_width space_offset
              let xf1 := { xf with off := some (new_x, off.2) }
              let table1 :=
                if strContains uri "chart" then table
                else if strContains uri "table" then table.map process_table
                else table
              .graphicFrame (some xf1) uri table1
          | _, _ => .graphicFrame (some xf) uri table

/-- `RTLVisualEngine._process_container` over the ordered child list. -/
def process_container (cfg : EngineConfig) (space_width space_offset : Int) :
    List ShapeElem → List ShapeElem
  | [] => []
  | e :: es =>
      process_elem cfg space_width space_offset e ::
      process_container cfg space_width space_offset es

end

/-- `RTLVisualEngine.transform`: process the whole `p:spTree` in the
slide-level coordinate space `(slide_width, 0)`. -/
def transform (cfg : EngineConfig) (sp_tree : List ShapeElem) : List ShapeElem :=
  process_container cfg cfg.slide_width 0 sp_tree

/- ============================================================
   Layout projections used to state the claims.
   ============================================================ -/

/-- The effective `x` of an optional transform. -/
def xfrm_x (xfrm : Option Xfrm) : Option Int :=
  (xfrm.bind Xfrm.off).map Prod.fst

/-- The effective `x` of an optional group transform. -/
def grp_xfrm_x (xfrm : Option GrpXfrm) : Option Int :=
  (xfrm.bind GrpXfrm.off).map Prod.fst

/-- The `x` coordinate of an element's own box, when it has one. -/
def elem_x : ShapeElem → Option Int
  | .sp _ xfrm _ _ => xfrm_x xfrm
  | .pic _ xfrm => xfrm_x xfrm
  | .cxnSp xfrm => xfrm_x xfrm
  | .grpSp xfrm _ => grp_xfrm_x xfrm
  | .graphicFrame xfrm _ _ => xfrm_x xfrm

/-- The `flipH` state of an element's own transform, when it has one. -/
def elem_flip : ShapeElem → Option Bool
  | .sp _ xfrm _ _ => xfrm.map Xfrm.flipH
  | .pic _ xfrm => xfrm.map Xfrm.flipH
  | .cxnSp xfrm => xfrm.map Xfrm.flipH
  | .grpSp xfrm _ => xfrm.map GrpXfrm.flipH
  | .graphicFrame xfrm _ _ => xfrm.map Xfrm.flipH

/-- The children of a group element (empty for other kinds). -/
def elem_children : ShapeElem → List ShapeElem
  | .grpSp _ children => children
  | _ => []

mutual

/-- All `x` coordinates of a subtree, in depth-first order. -/
def xs_of_elem : ShapeElem → List (Option Int)
  | .sp _ xfrm _ _ => [xfrm_x xfrm]
  | .pic _ xfrm => [xfrm_x xfrm]
  | .cxnSp xfrm => [xfrm_x xfrm]
  | .grpSp xfrm children => grp_xfrm_x xfrm :: xs_of_list children
  | .graphicFrame xfrm _ _ => [xfrm_x xfrm]

/-- All `x` coordinates of a forest. -/
def xs_of_list : List ShapeElem → List (Option Int)
  | [] => []
  | e :: es => xs_of_elem e ++ xs_of_list es

end

mutual

/-- All `flipH` states of a subtree, in depth-first order. -/
def flips_of_elem : ShapeElem → List (Option Bool)
  | .sp _ xfrm _ _ => [xfrm.map Xfrm.flipH]
  | .pic _ xfrm => [xfrm.map Xfrm.flipH]
  | .cxnSp xfrm => [xfrm.map Xfrm.flipH]
  | .grpSp xfrm children => xfrm.map GrpXfrm.flipH :: flips_of_list children
  | .graphicFrame xfrm _ _ => [xfrm.map Xfrm.flipH]

/-- All `flipH` states of a forest. -/
def flips_of_list : List ShapeElem → List (Option Bool)
  | [] => []
  | e :: es => flips_of_elem e ++ flips_of_list es

end

mutual

/-- The `flipH` states of the connectors of a subtree only. -/
def cxn_flips_of_elem : ShapeElem → List (Option Bool)
  | .cxnSp xfrm => [xfrm.map Xfrm.flipH]
  | .grpSp _ children => cxn_flips_of_list children
  | _ => []

/-- The connector `flipH` states of a forest. -/
def cxn_flips_of_list : List ShapeElem → List (Option Bool)
  | [] => []
  | e :: es => cxn_flips_of_elem e ++ cxn_flips_of_list es

end

/- ============================================================
   Content processor (`content_processor.py`): injection of translated
   content records.
   ============================================================ -/

/-- One entry of a translated paragraph list, as read by
`_update_shape_text` (`new_para.get("text", "")`); keys other than `text`
are never read during injection. -/
structure TranslatedParagraph where
  text : Option String
deriving Repr, DecidableEq

/-- One element of the translated JSON
(`{id, role, text, paragraphs: [...]}`), restricted to the keys injection
reads.  A missing or empty `paragraphs` key is modelled as `[]` (both are
falsy in the `if "paragraphs" in translated and translated["paragraphs"]`
test); a missing `text` key is modelled as `""` (read via `.get("text", "")`). -/
structure ContentRecord where
  id : String
  text : String
  paragraphs : List TranslatedParagraph
deriving Repr, DecidableEq

/-- The `translation_map` dict comprehension of `inject_translated_content`:
keyed by `id`, a later record with the same id overrides an earlier one. -/
def translation_map (elements : List ContentRecord) (shape_id : String) :
    Option ContentRecord :=
  elements.foldl (fun acc elem => if elem.id = shape_id then some elem else acc) none

/-- `ContentProcessor._create_run`: a fresh `a:r` with
`lang="ar-SA"`, `dirty="0"` and the given text. -/
def create_run (text : String) : Run :=
  { rPr := some { RPr.empty with lang := some "ar-SA", dirty := some "0" },
    t := some text }

/-- `ContentProcessor._create_paragraph`: a fresh `a:p` with RTL-default
paragraph properties (`rtl="1"`, `algn="r"`) and a single created run. -/
def create_paragraph (text : String) : Paragraph :=
  { pPr := some { PPr.empty with rtl := some "1", algn := some "r" },
    runs := [create_run text],
    fldTexts := [] }

/-- `ContentProcessor._update_paragraph_text`: keep the paragraph properties,
write the new text into the first run (creating its `a:t` if needed), set the
first run's language to `ar-SA` when it has run properties, and remove every
other run.  When the paragraph has no runs, create one. -/
def update_paragraph_text (paragraph : Paragraph) (new_text : String) : Paragraph :=
  match paragraph.runs with
  | [] => { paragraph with runs := [create_run new_text] }
  | first_run :: _ =>
      let first_run :=
        { first_run with
          t := some new_text,
          rPr := first_run.rPr.map (fun r_pr => { r_pr with lang := some "ar-SA" }) }
      { paragraph with runs := [first_run] }

/-- The paragraph texts a record injects: its `paragraphs` entries when the
list is non-empty, otherwise its `text` split on newlines. -/
def new_paragraph_texts (translated : ContentRecord) : List String :=
  if translated.paragraphs.isEmpty then
    translated.text.splitOn "\n"
  else
    translated.paragraphs.map (fun p => p.text.getD "")

/-- `ContentProcessor._update_shape_text` on a present text body: translated
paragraphs are mapped positionally onto existing paragraphs, new paragraphs
are created past the end, and trailing original paragraphs beyond the
translated count are removed. -/
def update_shape_text (translated : ContentRecord) (tx_body : TxBody) : TxBody :=
  let new_texts := new_paragraph_texts translated
  { tx_body with
    paragraphs :=
      List.zipWith update_paragraph_text tx_body.paragraphs new_texts ++
        (new_texts.drop tx_body.paragraphs.length).map create_paragraph }

mutual

/-- The per-shape step of `ContentProcessor.inject_translated_content`: a
`p:sp` whose `p:cNvPr` id is in the translation map gets its text body
rewritten; every other element (and every shape id) is left untouched.
Groups are traversed because `root.findall(".//p:sp")` matches shapes at any
depth. -/
def inject_elem (elements : List ContentRecord) : ShapeElem → ShapeElem
  | .sp cNvPr xfrm prstGeom txBody =>
      match cNvPr with
      | none => .sp none xfrm prstGeom txBody
      | some c =>
          match translation_map elements c.id with
          | some translated =>
              .sp (some c) xfrm prstGeom (txBody.map (update_shape_text translated))
          | none => .sp (some c) xfrm prstGeom txBody
  | .pic cNvPr xfrm => .pic cNvPr xfrm
  | .cxnSp xfrm => .cxnSp xfrm
  | .grpSp xfrm children => .grpSp xfrm (inject_list elements children)
  | .graphicFrame xfrm uri table => .graphicFrame xfrm uri table

/-- `inject_translated_content` over a forest. -/
def inject_list (elements : List ContentRecord) : List ShapeElem → List ShapeElem
  | [] => []
  | e :: es => inject_elem elements e :: inject_list elements es

end

mutual

/-- The ids of the `p:sp` shapes of a subtree, in depth-first order. -/
def ids_of_elem : ShapeElem → List String
  | .sp cNvPr _ _ _ =>
      match cNvPr with
      | some c => [c.id]
      | none => []
  | .grpSp _ children => ids_of_list children
  | _ => []

/-- The ids of the `p:sp` shapes of a forest. -/
def ids_of_list : List ShapeElem → List String
  | [] => []
  | e :: es => ids_of_elem e ++ ids_of_list es

end

mutual

/-- The text bodies of the `p:sp` shapes of a subtree, in depth-first
order (the content injection target state). -/
def sp_texts_of_elem : ShapeElem → List (Option TxBody)
  | .sp _ _ _ txBody => [txBody]
  | .grpSp _ children => sp_texts_of_list children
  | _ => []

/-- The `p:sp` text bodies of a forest. -/
def sp_texts_of_list : List ShapeElem → List (Option TxBody)
  | [] => []
  | e :: es => sp_texts_of_elem e ++ sp_texts_of_list es

end

/- ============================================================
   Chart processor (`chart_processor.py`): RTL bar chart adjustment of
   `inject_chart_text`.
   ============================================================ -/

/-- A child element of `c:scaling`: either a `c:orientation` (with its
optional `val` attribute) or anything else. -/
inductive ScalingChild where
  | orientation (val : Option String)
  | otherScalingChild
deriving Repr, DecidableEq

/-- A child element of `c:valAx`: a `c:scaling` (with its ordered children),
a `c:axId`, or anything else. -/
inductive ValAxChild where
  | scaling (children : List ScalingChild)
  | axId
  | otherAxChild
deriving Repr, DecidableEq

/-- A `c:barChart` element: the `val` attribute of its `c:barDir` child
(`none` when the child or the attribute is absent). -/
structure BarChart where
  barDir : Option String
deriving Repr, DecidableEq

/-- The slice of a chart part that the RTL bar-chart adjustment inspects:
the first `c:barChart` found anywhere (if any) and the ordered children of
the first `c:valAx` found anywhere (if any). -/
structure ChartPart where
  barChart : Option BarChart
  valAx : Option (List ValAxChild)
deriving Repr, DecidableEq

/-- Is there a `c:orientation` among the scaling's children? -/
def has_orientation (children : List ScalingChild) : Bool :=
  children.any fun c =>
    match c with
    | .orientation _ => true
    | .otherScalingChild => false

/-- Set `val="maxMin"` on the first `c:orientation` child. -/
def set_first_orientation : List ScalingChild → List ScalingChild
  | [] => []
  | .orientation _ :: rest => .orientation (some "maxMin") :: rest
  | c :: rest => c :: set_first_orientation rest

/-- The orientation step of the adjustment: find or create (append) the
`c:orientation` child of the scaling and set its `val` to `"maxMin"`. -/
def set_orientation_maxMin (children : List ScalingChild) : List ScalingChild :=
  if has_orientation children then set_first_orientation children
  else children ++ [.orientation (some "maxMin")]

/-- Is there a `c:scaling` among the axis children? -/
def has_scaling (children : List ValAxChild) : Bool :=
  children.any fun c =>
    match c with
    | .scaling _ => true
    | _ => false

/-- Apply the orientation step to the first `c:scaling` child. -/
def apply_first_scaling : List ValAxChild → List ValAxChild
  | [] => []
  | .scaling sc :: rest => .scaling (set_orientation_maxMin sc) :: rest
  | c :: rest => c :: apply_first_scaling rest

/-- Create a fresh `c:scaling`, inserted before the first `c:axId` when one
exists and appended at the end otherwise, and run the orientation step on it
(its orientation child is created and set to `"maxMin"`). -/
def insert_scaling : List ValAxChild → List ValAxChild
  | [] => [.scaling (set_orientation_maxMin [])]
  | .axId :: rest => .scaling (set_orientation_maxMin []) :: .axId :: rest
  | c :: rest => c :: insert_scaling rest

/-- The value-axis update of the adjustment: reuse the first scaling when one
exists, otherwise create one positioned before the axis-id element. -/
def inject_val_ax (children : List ValAxChild) : List ValAxChild :=
  if has_scaling children then apply_first_scaling children
  else insert_scaling children

/-- `barDir is not None and barDir.get("val") == "bar"`: the chart is a
horizontal bar chart. -/
def is_horizontal_bar (chart : ChartPart) : Bool :=
  match chart.barChart with
  | some bc => bc.barDir = some "bar"
  | none => false

/-- The RTL bar chart adjustment at the end of
`ChartProcessor.inject_chart_text`: when the chart is a horizontal bar chart
and has a value axis, ensure a scaling/orientation chain exists and set the
orientation to `"maxMin"`; otherwise leave the chart untouched. -/
def inject_bar_flip (chart : ChartPart) : ChartPart :=
  if is_horizontal_bar chart then
    { chart with valAx := chart.valAx.map inject_val_ax }
  else chart

/-- The `val` of the first orientation of the first scaling of the axis
children, when that chain exists. -/
def first_orientation_val (children : List ValAxChild) : Option (Option String) :=
  match children.find? (fun c =>
      match c with
      | .scaling _ => true
      | _ => false) with
  | some (.scaling sc) =>
      match sc.find? (fun c =>
          match c with
          | .orientation _ => true
          | _ => false) with
      | some (.orientation v) => some v
      | _ => none
  | _ => none

/- ============================================================
   Theorems.
   ============================================================ -/

/-- C1: for every `x`, `width`, `space_width` and `space_offset`,
`mirror_x` computes `space_offset + (space_width - ((x - space_offset) + width))`;
in particular, in a root space of width 12,192,000 with offset 0, a shape at
`x = 0` with width 3,000,000 is mirrored to `x = 9,192,000`. -/
theorem mirror_x_contract (x width space_width space_offset : Int) :
    mirror_x x width space_width space_offset =
      space_offset + (space_width - ((x - space_offset) + width)) ∧
    mirror_x 0 3000000 12192000 0 = 9192000 := by
  refine ⟨rfl, by decide⟩

/-- Helper: `mirror_x` is an involution (shared by the walker round-trip
proofs). -/
theorem mirror_involution (x width space_width space_offset : Int) :
    mirror_x (mirror_x x width space_width space_offset)
      width space_width space_offset = x := by
  simp only [mirror_x]
  omega

/-- C2: applying `mirror_x` twice with the same space and an unchanged width
returns the original `x`. -/
theorem mirror_x_involution (x width space_width space_offset : Int) :
    mirror_x (mirror_x x width space_width space_offset)
      width space_width space_offset = x := by
  simp only [mirror_x]
  omega

/-- A run text that is non-whitespace makes `hasRealText` true. -/
theorem hasRealText_of_run (tb : TxBody)
    (h : ∃ p ∈ tb.paragraphs, ∃ r ∈ p.runs, ∃ s, r.t = some s ∧ hasNonWS s = true) :
    tb.hasRealText = true := by
  obtain ⟨p, hp, r, hr, s, hts, hnw⟩ := h
  have hs : s ∈ p.tTexts := by
    simp only [Paragraph.tTexts, List.mem_append, List.mem_filterMap]
    exact Or.inl ⟨r, hr, hts⟩
  have hmem : s ∈ (tb.paragraphs.map Paragraph.tTexts).flatten := by
    rw [List.mem_flatten]
    exact ⟨p.tTexts, List.mem_map.mpr ⟨p, hp, rfl⟩, hs⟩
  simp only [TxBody.hasRealText, TxBody.tTexts, List.any_eq_true]
  exact ⟨s, hmem, hnw⟩

/-- C4: a shape whose text body has at least one run with non-whitespace text
is never flipped by the classifier, whatever its preset geometry, width or
aspect ratio; consequently processing such a `p:sp` leaves its `flipH` state
unchanged. -/
theorem text_shape_never_flipped (cfg : EngineConfig) (tb : TxBody)
    (prstGeom : Option String) (bbox : BoundingBox) (name : String)
    (h : ∃ p ∈ tb.paragraphs, ∃ r ∈ p.runs, ∃ s, r.t = some s ∧ hasNonWS s = true) :
    should_flip_shape cfg (some tb) prstGeom bbox name = false ∧
    ∀ (cNvPr : Option CNvPr) (xfrm : Option Xfrm) (sw so : Int),
      elem_flip (process_elem cfg sw so (.sp cNvPr xfrm prstGeom (some tb))) =
        elem_flip (.sp cNvPr xfrm prstGeom (some tb)) := by
  have htext := hasRealText_of_run tb h
  have hflip : ∀ (b : BoundingBox) (n : String),
      should_flip_shape cfg (some tb) prstGeom b n = false := by
    intro b n
    simp [should_flip_shape, htext]
  refine ⟨hflip bbox name, ?_⟩
  intro cNvPr xfrm sw so
  match xfrm with
  | none => simp [process_elem, get_bounding_box]
  | some ⟨none, e, f⟩ =>
      cases e <;> simp [process_elem, get_bounding_box]
  | some ⟨some o, none, f⟩ =>
      simp [process_elem, get_bounding_box]
  | some ⟨some o, some e, f⟩ =>
      simp [process_elem, get_bounding_box, hflip, set_offset_x, elem_flip]

/-- C4 witness: a wide chevron-preset shape carrying the text "Hello" is not
flipped. -/
theorem text_shape_never_flipped_witness :
    (∃ p ∈ ([⟨none, [⟨none, some "Hello"⟩], []⟩] : List Paragraph),
      ∃ r ∈ p.runs, ∃ s, r.t = some s ∧ hasNonWS s = true) ∧
    should_flip_shape default_engine_config
      (some ⟨none, [⟨none, [⟨none, some "Hello"⟩], []⟩]⟩)
      (some "chevron") ⟨0, 0, 9000000, 1000000⟩ "Banner" = false :=
  ⟨by decide,
   (text_shape_never_flipped default_engine_config
      ⟨none, [⟨none, [⟨none, some "Hello"⟩], []⟩]⟩
      (some "chevron") ⟨0, 0, 9000000, 1000000⟩ "Banner" (by decide)).1⟩

/-- The logo heuristic agrees with the claim's characterisation: a brand
keyword, or a small corner picture, or a small, corner-positioned, roughly
square non-picture. -/
theorem is_likely_logo_eq_claimed (slide_width : Int) (is_picture : Bool)
    (name : String) (bbox : BoundingBox) :
    is_likely_logo slide_width is_picture name bbox =
      claimed_logo slide_width is_picture name bbox := by
  simp only [is_likely_logo, claimed_logo]
  cases h1 : LOGO_KEYWORDS.any (fun keyword => strContains (strLower name) keyword) <;>
  cases is_picture <;>
  cases h2 : decide (100 * bbox.width < 15 * slide_width) <;>
  cases h3 : decide (10 * bbox.x < slide_width) <;>
  cases h4 : decide (10 * bbox.right_edge > 9 * slide_width) <;>
  cases h5 : (if bbox.height > 0 then
      decide (bbox.height ≤ 2 * bbox.width ∧ bbox.width ≤ 2 * bbox.height)
    else true) <;>
  simp [h1, h2, h3, h4, h5]

/-- A logo is never flipped by the classifier. -/
theorem logo_not_flipped (cfg : EngineConfig) (txBody : Option TxBody)
    (prstGeom : Option String) (bbox : BoundingBox) (name : String)
    (hlogo : is_likely_logo cfg.slide_width false name bbox = true) :
    should_flip_shape cfg txBody prstGeom bbox name = false := by
  unfold should_flip_shape
  cases txBody with
  | none => simp [hlogo]
  | some t => cases ht : t.hasRealText <;> simp [hlogo, ht]

/-- C7: a logo-judged shape — brand keyword in its name, or a small corner
picture, or a small, corner-positioned, roughly square non-picture — is never
horizontally flipped, while its position is still mirrored; pictures are never
flipped at all; in particular a picture named "CompanyLogo" of width 1,000,000
at `x=0` in a 12,192,000-wide slide is classified as a logo, keeps its flip
state and has its position mirrored to `x = 11,192,000`. -/
theorem logo_shapes_mirrored_never_flipped :
    (∀ (slide_width : Int) (is_picture : Bool) (name : String) (bbox : BoundingBox),
      is_likely_logo slide_width is_picture name bbox =
        claimed_logo slide_width is_picture name bbox) ∧
    (∀ (cfg : EngineConfig) (txBody : Option TxBody) (prstGeom : Option String)
        (bbox : BoundingBox) (name : String),
      is_likely_logo cfg.slide_width false name bbox = true →
      should_flip_shape cfg txBody prstGeom bbox name = false) ∧
    (∀ (cfg : EngineConfig) (sw so : Int) (c : Option CNvPr) (xf : Option Xfrm)
        (geom : Option String) (tb : Option TxBody) (bbox : BoundingBox),
      get_bounding_box xf = some bbox →
      is_likely_logo cfg.slide_width false (element_name c) bbox = true →
      elem_x (process_elem cfg sw so (.sp c xf geom tb)) =
        some (mirror_x bbox.x bbox.width sw so) ∧
      elem_flip (process_elem cfg sw so (.sp c xf geom tb)) =
        elem_flip (.sp c xf geom tb)) ∧
    (∀ (cfg : EngineConfig) (sw so : Int) (c : Option CNvPr) (xf : Option Xfrm)
        (bbox : BoundingBox),
      get_bounding_box xf = some bbox →
      elem_x (process_elem cfg sw so (.pic c xf)) =
        some (mirror_x bbox.x bbox.width sw so) ∧
      elem_flip (process_elem cfg sw so (.pic c xf)) = elem_flip (.pic c xf)) ∧
    (is_likely_logo 12192000 true "CompanyLogo" ⟨0, 0, 1000000, 500000⟩ = true ∧
     elem_x (process_elem default_engine_config 12192000 0
       (.pic (some ⟨"7", "CompanyLogo"⟩)
         (some ⟨some (0, 0), some (1000000, 500000), false⟩))) = some 11192000 ∧
     elem_flip (process_elem default_engine_config 12192000 0
       (.pic (some ⟨"7", "CompanyLogo"⟩)
         (some ⟨some (0, 0), some (1000000, 500000), false⟩))) = some false) := by
  refine ⟨is_likely_logo_eq_claimed, logo_not_flipped, ?_, ?_, ?_⟩
  · intro cfg sw so c xf geom tb bbox hbb hlogo
    match xf with
    | none => simp [get_bounding_box] at hbb
    | some ⟨none, e, f⟩ => cases e <;> simp [get_bounding_box] at hbb
    | some ⟨some o, none, f⟩ => simp [get_bounding_box] at hbb
    | some ⟨some o, some e, f⟩ =>
        simp only [get_bounding_box, Option.some.injEq] at hbb
        subst hbb
        have hns := logo_not_flipped cfg tb geom _ (element_name c) hlogo
        simp [process_elem, get_bounding_box, hns, set_offset_x, elem_x, xfrm_x,
          elem_flip]
  · intro cfg sw so c xf bbox hbb
    match xf with
    | none => simp [get_bounding_box] at hbb
    | some ⟨none, e, f⟩ => cases e <;> simp [get_bounding_box] at hbb
    | some ⟨some o, none, f⟩ => simp [get_bounding_box] at hbb
    | some ⟨some o, some e, f⟩ =>
        simp only [get_bounding_box, Option.some.injEq] at hbb
        subst hbb
        simp [process_elem, get_bounding_box, set_offset_x, elem_x, xfrm_x,
          elem_flip]
  · refine ⟨by decide, by decide, by decide⟩

/-- C7 witness: the scenario-C picture instantiates the universal parts. -/
theorem logo_shapes_mirrored_never_flipped_witness :
    should_flip_shape default_engine_config none none ⟨0, 0, 1000000, 500000⟩
      "CompanyLogo" = false ∧
    elem_x (process_elem default_engine_config 12192000 0
      (.pic (some ⟨"7", "CompanyLogo"⟩)
        (some ⟨some (0, 0), some (1000000, 500000), false⟩))) = some 11192000 :=
  ⟨logo_shapes_mirrored_never_flipped.2.1 default_engine_config none none
      ⟨0, 0, 1000000, 500000⟩ "CompanyLogo" (by decide),
   (logo_shapes_mirrored_never_flipped.2.2.2.1 default_engine_config 12192000 0
      (some ⟨"7", "CompanyLogo"⟩) (some ⟨some (0, 0), some (1000000, 500000), false⟩)
      ⟨0, 0, 1000000, 500000⟩ (by decide)).1⟩

/-- C3: a group's own box is mirrored in the parent coordinate space while
its children are processed in the group's declared child space; the children's
results are independent of the parent space (hence of the group's new
parent-space position).  Concretely (Scenario B), in a root space of width
12,192,000, a group at `x=1,000,000, width=2,000,000` with child space
`{offset 0, extent 2,000,000}` containing a child at `x=500,000, width=500,000`
mirrors to `x = 9,192,000` while the child moves to `x = 1,000,000`. -/
theorem group_mirror_parent_child_spaces :
    (∀ (cfg : EngineConfig) (sw so : Int) (gx : GrpXfrm) (ch : List ShapeElem)
        (ox oy cx cy co : Int) (ce : Option Int),
      gx.off = some (ox, oy) → gx.ext = some (cx, cy) →
      gx.chOff = some co → gx.chExt = some ce →
      elem_x (process_elem cfg sw so (.grpSp (some gx) ch)) =
        some (mirror_x ox cx sw so) ∧
      elem_children (process_elem cfg sw so (.grpSp (some gx) ch)) =
        process_container cfg (ce.getD cx) co ch) ∧
    (∀ (cfg : EngineConfig) (sw so sw' so' : Int) (gx : Option GrpXfrm)
        (ch : List ShapeElem),
      elem_children (process_elem cfg sw so (.grpSp gx ch)) =
        elem_children (process_elem cfg sw' so' (.grpSp gx ch))) ∧
    xs_of_list (process_container default_engine_config 12192000 0
      [.grpSp (some ⟨some (1000000, 0), some (2000000, 1000000),
          some 0, some (some 2000000), false⟩)
        [.sp (some ⟨"2", "ChildBox"⟩)
          (some ⟨some (500000, 0), some (500000, 500000), false⟩) none none]]) =
      [some 9192000, some 1000000] := by
  refine ⟨?_, ?_, by decide⟩
  · intro cfg sw so gx ch ox oy cx cy co ce hoff hext hcho hche
    obtain ⟨goff, gext, gcho, gche, gflip⟩ := gx
    cases hoff; cases hext; cases hcho; cases hche
    simp [process_elem, elem_x, grp_xfrm_x, elem_children, child_space]
  · intro cfg sw so sw' so' gx ch
    match gx with
    | none => rfl
    | some ⟨goff, gext, gcho, gche, gflip⟩ =>
        cases goff with
        | none => cases gext <;> rfl
        | some o => cases gext <;> simp [process_elem, elem_children]

/-- C3 witness: instantiate the first conjunct at the Scenario B group. -/
theorem group_mirror_parent_child_spaces_witness :
    elem_x (process_elem default_engine_config 12192000 0
      (.grpSp (some ⟨some (1000000, 0), some (2000000, 1000000),
          some 0, some (some 2000000), false⟩) [])) = some 9192000 :=
  (group_mirror_parent_child_spaces.1 default_engine_config 12192000 0
    ⟨some (1000000, 0), some (2000000, 1000000), some 0, some (some 2000000), false⟩
    [] 1000000 0 2000000 1000000 0 (some 2000000) rfl rfl rfl rfl).1

/-- C9 counterexample: for a group at `x = 1,000,000, width = 2,000,000` with
no `a:chOff`/`a:chExt`, the walker processes the child in the space
`(width 2,000,000, offset 0)`, sending a child at `x=500,000, width=500,000`
to `x = 1,000,000`; mirroring in a space whose offset is the group's own
offset 1,000,000 (what the claim's fallback would give) would instead send it
to `x = 3,000,000`. -/
theorem group_fallback_counterexample :
    xs_of_list (process_container default_engine_config 12192000 0
      [.grpSp (some ⟨some (1000000, 0), some (2000000, 1000000), none, none, false⟩)
        [.sp (some ⟨"3", "InnerBox"⟩)
          (some ⟨some (500000, 0), some (500000, 500000), false⟩) none none]]) =
      [some 9192000, some 1000000] ∧
    mirror_x 500000 500000 2000000 1000000 = 3000000 ∧
    (1000000 : Int) ≠ 3000000 := by
  decide

/-- C9 (amended): for every group that declares no child-offset/child-extent,
the walker computes the child coordinate space as `(group_width, 0)` — the
group's own width but offset zero, not the group's own offset — and recurses
into the children with that space. -/
theorem group_fallback_zero_offset (cfg : EngineConfig) (sw so : Int)
    (gx : GrpXfrm) (ch : List ShapeElem) (ox oy cx cy : Int)
    (hoff : gx.off = some (ox, oy)) (hext : gx.ext = some (cx, cy))
    (habsent : gx.chOff = none ∨ gx.chExt = none) :
    elem_children (process_elem cfg sw so (.grpSp (some gx) ch)) =
      process_container cfg cx 0 ch := by
  obtain ⟨goff, gext, gcho, gche, gflip⟩ := gx
  cases hoff; cases hext
  rcases habsent with h | h <;> cases h <;>
    simp [process_elem, elem_children, child_space]

/-- C9 witness: the fallback group of the counterexample recurses with space
`(2,000,000, 0)`. -/
theorem group_fallback_zero_offset_witness :
    elem_children (process_elem default_engine_config 12192000 0
      (.grpSp (some ⟨some (1000000, 0), some (2000000, 1000000), none, none, false⟩)
        [.sp (some ⟨"3", "InnerBox"⟩)
          (some ⟨some (500000, 0), some (500000, 500000), false⟩) none none])) =
      process_container default_engine_config 2000000 0
        [.sp (some ⟨"3", "InnerBox"⟩)
          (some ⟨some (500000, 0), some (500000, 500000), false⟩) none none] :=
  group_fallback_zero_offset default_engine_config 12192000 0
    ⟨some (1000000, 0), some (2000000, 1000000), none, none, false⟩
    [.sp (some ⟨"3", "InnerBox"⟩)
      (some ⟨some (500000, 0), some (500000, 500000), false⟩) none none]
    1000000 0 2000000 1000000 rfl rfl (Or.inl rfl)

mutual

/-- Content injection preserves the shape ids of a subtree. -/
theorem ids_inject_elem (elements : List ContentRecord) (e : ShapeElem) :
    ids_of_elem (inject_elem elements e) = ids_of_elem e := by
  match e with
  | .sp cNvPr xfrm prstGeom txBody =>
      match cNvPr with
      | none => rfl
      | some c =>
          simp only [inject_elem]
          cases translation_map elements c.id <;> rfl
  | .pic cNvPr xfrm => rfl
  | .cxnSp xfrm => rfl
  | .grpSp xfrm children =>
      simp only [inject_elem, ids_of_elem]
      exact ids_inject_list elements children
  | .graphicFrame xfrm uri table => rfl

/-- Content injection preserves the shape ids of a forest. -/
theorem ids_inject_list (elements : List ContentRecord) (l : List ShapeElem) :
    ids_of_list (inject_list elements l) = ids_of_list l := by
  match l with
  | [] => rfl
  | e :: es =>
      simp only [inject_list, ids_of_list]
      rw [ids_inject_elem elements e, ids_inject_list elements es]

end

/-- C5: content injection neither adds nor removes shapes and never changes a
shape id — the depth-first list of shape ids (hence the set of ids) is the
same before and after injection — and any shape whose id is absent from the
translated record set is left completely untouched. -/
theorem injection_preserves_ids :
    (∀ (elements : List ContentRecord) (tree : List ShapeElem),
      ids_of_list (inject_list elements tree) = ids_of_list tree) ∧
    (∀ (elements : List ContentRecord) (c : CNvPr) (xfrm : Option Xfrm)
        (prstGeom : Option String) (txBody : Option TxBody),
      translation_map elements c.id = none →
      inject_elem elements (.sp (some c) xfrm prstGeom txBody) =
        .sp (some c) xfrm prstGeom txBody) ∧
    (∀ (elements : List ContentRecord) (xfrm : Option Xfrm)
        (prstGeom : Option String) (txBody : Option TxBody),
      inject_elem elements (.sp none xfrm prstGeom txBody) =
        .sp none xfrm prstGeom txBody) := by
  refine ⟨ids_inject_list, ?_, ?_⟩
  · intro elements c xfrm prstGeom txBody hnone
    simp [inject_elem, hnone]
  · intro elements xfrm prstGeom txBody
    rfl

/-- C5 witness: a two-shape slide with one translated id keeps both ids, and
the untranslated shape is untouched. -/
theorem injection_preserves_ids_witness :
    ids_of_list (inject_list [⟨"5", "T", [⟨some "S"⟩]⟩]
      [.sp (some ⟨"5", "Title"⟩) none none none,
       .sp (some ⟨"6", "Body"⟩) none none none]) = ["5", "6"] ∧
    inject_elem [⟨"5", "T", [⟨some "S"⟩]⟩] (.sp (some ⟨"6", "Body"⟩) none none none) =
      .sp (some ⟨"6", "Body"⟩) none none none :=
  ⟨by rw [injection_preserves_ids.1 [⟨"5", "T", [⟨some "S"⟩]⟩]
      [.sp (some ⟨"5", "Title"⟩) none none none,
       .sp (some ⟨"6", "Body"⟩) none none none]]; rfl,
   injection_preserves_ids.2.1 [⟨"5", "T", [⟨some "S"⟩]⟩] ⟨"6", "Body"⟩
     none none none (by decide)⟩

/-- C6: when the translated record has fewer paragraphs than the target text
body, injection updates the existing paragraphs positionally and deletes the
trailing originals; each updated paragraph keeps its paragraph properties and
keeps exactly its original first run with the new text and `lang="ar-SA"`
(all other run properties — bold, fonts — unchanged), discarding the other
runs.  In particular a 1-paragraph record into a 3-paragraph body leaves
exactly one paragraph whose first run carries the original first run's
formatting. -/
theorem injection_fewer_paragraphs (translated : ContentRecord) (tb : TxBody)
    (hne : translated.paragraphs ≠ [])
    (hle : translated.paragraphs.length ≤ tb.paragraphs.length) :
    (update_shape_text translated tb).paragraphs.length =
        translated.paragraphs.length ∧
    (update_shape_text translated tb).paragraphs =
        List.zipWith update_paragraph_text tb.paragraphs
          (new_paragraph_texts translated) ∧
    (∀ (p : Paragraph) (t : String) (first : Run) (rest : List Run),
      p.runs = first :: rest →
      (update_paragraph_text p t).runs =
        [{ first with
           t := some t,
           rPr := first.rPr.map (fun r => { r with lang := some "ar-SA" }) }] ∧
      (update_paragraph_text p t).pPr = p.pPr ∧
      (update_paragraph_text p t).fldTexts = p.fldTexts) ∧
    (update_shape_text ⟨"5", "", [⟨some "AR-TITLE"⟩]⟩
      ⟨some ⟨some "1"⟩,
       [⟨some ⟨some "l", none, none, none⟩,
         [⟨some ⟨some "en-US", some "1", none, some ⟨some "Calibri", some "34", some "0"⟩,
             none⟩, some "Title"⟩,
          ⟨none, some "Tail"⟩], []⟩,
        ⟨none, [⟨none, some "Second"⟩], []⟩,
        ⟨none, [⟨none, some "Third"⟩], []⟩]⟩).paragraphs =
      [⟨some ⟨some "l", none, none, none⟩,
        [⟨some ⟨some "ar-SA", some "1", none, some ⟨some "Calibri", some "34", some "0"⟩,
            none⟩, some "AR-TITLE"⟩], []⟩] := by
  have hlen : (new_paragraph_texts translated).length =
      translated.paragraphs.length := by
    match hpar : translated.paragraphs with
    | [] => exact absurd hpar hne
    | q :: qs => simp [new_paragraph_texts, hpar]
  have hdrop : (new_paragraph_texts translated).drop tb.paragraphs.length = [] := by
    apply List.drop_eq_nil_of_le
    omega
  refine ⟨?_, ?_, ?_, by decide⟩
  · simp [update_shape_text, hdrop]
    omega
  · simp [update_shape_text, hdrop]
  · intro p t first rest hruns
    simp [update_paragraph_text, hruns]

/-- C6 witness: the concrete Scenario D instance discharges the hypotheses. -/
theorem injection_fewer_paragraphs_witness :
    (update_shape_text ⟨"9", "", [⟨some "AR"⟩]⟩
      ⟨none, [⟨none, [⟨none, some "One"⟩], []⟩,
              ⟨none, [⟨none, some "Two"⟩], []⟩,
              ⟨none, [⟨none, some "Three"⟩], []⟩]⟩).paragraphs.length = 1 :=
  (injection_fewer_paragraphs ⟨"9", "", [⟨some "AR"⟩]⟩
    ⟨none, [⟨none, [⟨none, some "One"⟩], []⟩,
            ⟨none, [⟨none, some "Two"⟩], []⟩,
            ⟨none, [⟨none, some "Three"⟩], []⟩]⟩
    (by decide) (by decide)).1

/-- Is a scaling child a `c:orientation`? (predicate used by the find-or-create
step). -/
theorem has_orientation_sfo (cs : List ScalingChild) :
    has_orientation (set_first_orientation cs) = has_orientation cs := by
  induction cs with
  | nil => rfl
  | cons c rest ih =>
      cases c with
      | orientation v => simp [set_first_orientation, has_orientation]
      | otherScalingChild =>
          simp only [set_first_orientation, has_orientation, List.any_cons] at *
          rw [ih]

/-- Setting the first orientation twice equals setting it once. -/
theorem sfo_idem (cs : List ScalingChild) :
    set_first_orientation (set_first_orientation cs) = set_first_orientation cs := by
  induction cs with
  | nil => rfl
  | cons c rest ih =>
      cases c with
      | orientation v => simp [set_first_orientation]
      | otherScalingChild => simp [set_first_orientation, ih]

/-- With no orientation present, setting the first orientation of the list
with a freshly appended `maxMin` orientation changes nothing. -/
theorem sfo_append_maxMin (cs : List ScalingChild)
    (h : has_orientation cs = false) :
    set_first_orientation (cs ++ [.orientation (some "maxMin")]) =
      cs ++ [.orientation (some "maxMin")] := by
  induction cs with
  | nil => rfl
  | cons c rest ih =>
      cases c with
      | orientation v => simp [has_orientation] at h
      | otherScalingChild =>
          simp only [has_orientation, List.any_cons, Bool.or_eq_false_iff] at h
          simp [set_first_orientation, ih h.2]

/-- The orientation step is idempotent. -/
theorem set_orientation_maxMin_idem (cs : List ScalingChild) :
    set_orientation_maxMin (set_orientation_maxMin cs) = set_orientation_maxMin cs := by
  unfold set_orientation_maxMin
  cases h : has_orientation cs with
  | true => simp [has_orientation_sfo, h, sfo_idem]
  | false =>
      have happ : has_orientation (cs ++ [.orientation (some "maxMin")]) = true := by
        simp [has_orientation]
      simp [h, happ, sfo_append_maxMin cs h]

/-- With an orientation present, setting the first orientation makes the first
orientation found `maxMin`. -/
theorem find_orientation_sfo (cs : List ScalingChild)
    (h : has_orientation cs = true) :
    (set_first_orientation cs).find? (fun c =>
        match c with
        | .orientation _ => true
        | _ => false) = some (.orientation (some "maxMin")) := by
  induction cs with
  | nil => simp [has_orientation] at h
  | cons c rest ih =>
      cases c with
      | orientation v => simp [set_first_orientation, List.find?]
      | otherScalingChild =>
          simp only [has_orientation, List.any_cons, Bool.false_or] at h
          simpa [set_first_orientation, List.find?] using ih h

/-- With no orientation present, the appended `maxMin` orientation is the
first one found. -/
theorem find_orientation_append (cs : List ScalingChild)
    (h : has_orientation cs = false) :
    (cs ++ [ScalingChild.orientation (some "maxMin")]).find? (fun c =>
        match c with
        | .orientation _ => true
        | _ => false) = some (.orientation (some "maxMin")) := by
  induction cs with
  | nil => simp [List.find?]
  | cons c rest ih =>
      cases c with
      | orientation v => simp [has_orientation] at h
      | otherScalingChild =>
          simp only [has_orientation, List.any_cons, Bool.or_eq_false_iff] at h
          simpa [List.find?] using ih h.2

/-- After the orientation step, the first orientation child is `maxMin`. -/
theorem find_orientation_so (cs : List ScalingChild) :
    (set_orientation_maxMin cs).find? (fun c =>
        match c with
        | .orientation _ => true
        | _ => false) = some (.orientation (some "maxMin")) := by
  unfold set_orientation_maxMin
  cases h : has_orientation cs with
  | true => simpa using find_orientation_sfo cs h
  | false => simpa using find_orientation_append cs h

/-- Applying the scaling step preserves the presence of a scaling. -/
theorem has_scaling_afs (cs : List ValAxChild) :
    has_scaling (apply_first_scaling cs) = has_scaling cs := by
  induction cs with
  | nil => rfl
  | cons c rest ih =>
      cases c with
      | scaling sc => simp [apply_first_scaling, has_scaling]
      | axId =>
          simp only [apply_first_scaling, has_scaling, List.any_cons] at *
          rw [ih]
      | otherAxChild =>
          simp only [apply_first_scaling, has_scaling, List.any_cons] at *
          rw [ih]

/-- Applying the scaling step twice equals applying it once. -/
theorem afs_idem (cs : List ValAxChild) :
    apply_first_scaling (apply_first_scaling cs) = apply_first_scaling cs := by
  induction cs with
  | nil => rfl
  | cons c rest ih =>
      cases c with
      | scaling sc => simp [apply_first_scaling, set_orientation_maxMin_idem]
      | axId => simp [apply_first_scaling, ih]
      | otherAxChild => simp [apply_first_scaling, ih]

/-- The freshly inserted scaling makes `has_scaling` true. -/
theorem has_scaling_insert (cs : List ValAxChild) :
    has_scaling (insert_scaling cs) = true := by
  induction cs with
  | nil => rfl
  | cons c rest ih =>
      cases c with
      | scaling sc => simp [insert_scaling, has_scaling]
      | axId => simp [insert_scaling, has_scaling]
      | otherAxChild =>
          simp only [insert_scaling, has_scaling, List.any_cons] at *
          rw [ih]
          rfl

/-- When no scaling existed, the scaling step fixes the freshly inserted
scaling chain. -/
theorem afs_insert (cs : List ValAxChild) (h : has_scaling cs = false) :
    apply_first_scaling (insert_scaling cs) = insert_scaling cs := by
  induction cs with
  | nil => simp [insert_scaling, apply_first_scaling, set_orientation_maxMin_idem]
  | cons c rest ih =>
      cases c with
      | scaling sc => simp [has_scaling] at h
      | axId =>
          simp [insert_scaling, apply_first_scaling, set_orientation_maxMin_idem]
      | otherAxChild =>
          simp only [has_scaling, List.any_cons, Bool.or_eq_false_iff] at h
          simp [insert_scaling, apply_first_scaling, ih h.2]

/-- The value-axis update is idempotent. -/
theorem inject_val_ax_idem (cs : List ValAxChild) :
    inject_val_ax (inject_val_ax cs) = inject_val_ax cs := by
  unfold inject_val_ax
  cases h : has_scaling cs with
  | true => simp [has_scaling_afs, h, afs_idem]
  | false => simp [h, has_scaling_insert, afs_insert cs h]

/-- After the scaling step on a list with a scaling, the first scaling's
first orientation is `maxMin`. -/
theorem fov_afs (cs : List ValAxChild) (h : has_scaling cs = true) :
    first_orientation_val (apply_first_scaling cs) = some (some "maxMin") := by
  induction cs with
  | nil => simp [has_scaling] at h
  | cons c rest ih =>
      cases c with
      | scaling sc =>
          simp [apply_first_scaling, first_orientation_val, List.find?,
            find_orientation_so]
      | axId =>
          simp only [has_scaling, List.any_cons, Bool.false_or] at h
          simpa [apply_first_scaling, first_orientation_val, List.find?]
            using ih h
      | otherAxChild =>
          simp only [has_scaling, List.any_cons, Bool.false_or] at h
          simpa [apply_first_scaling, first_orientation_val, List.find?]
            using ih h

/-- After inserting the fresh scaling into a scaling-free list, the first
scaling's first orientation is `maxMin`. -/
theorem fov_insert (cs : List ValAxChild) (h : has_scaling cs = false) :
    first_orientation_val (insert_scaling cs) = some (some "maxMin") := by
  induction cs with
  | nil => simp [insert_scaling, first_orientation_val, List.find?,
      set_orientation_maxMin, has_orientation, set_first_orientation]
  | cons c rest ih =>
      cases c with
      | scaling sc => simp [has_scaling] at h
      | axId =>
          simp [insert_scaling, first_orientation_val, List.find?,
            set_orientation_maxMin, has_orientation, set_first_orientation]
      | otherAxChild =>
          simp only [has_scaling, List.any_cons, Bool.or_eq_false_iff] at h
          simpa [insert_scaling, first_orientation_val, List.find?]
            using ih h.2

/-- After the value-axis update, the first scaling's first orientation is
`maxMin`. -/
theorem fov_inject_val_ax (cs : List ValAxChild) :
    first_orientation_val (inject_val_ax cs) = some (some "maxMin") := by
  unfold inject_val_ax
  cases h : has_scaling cs with
  | true => simpa using fov_afs cs h
  | false => simpa using fov_insert cs h

/-- When no scaling exists, the fresh scaling is inserted exactly before the
first axis-id element. -/
theorem insert_scaling_before_axid (pre post : List ValAxChild)
    (hno : has_scaling (pre ++ .axId :: post) = false) (hpre : ValAxChild.axId ∉ pre) :
    inject_val_ax (pre ++ .axId :: post) =
      pre ++ .scaling [.orientation (some "maxMin")] :: .axId :: post := by
  have hins : ∀ (l : List ValAxChild), has_scaling (l ++ .axId :: post) = false →
      ValAxChild.axId ∉ l →
      insert_scaling (l ++ .axId :: post) =
        l ++ .scaling [.orientation (some "maxMin")] :: .axId :: post := by
    intro l
    induction l with
    | nil =>
        intro _ _
        simp [insert_scaling, set_orientation_maxMin, has_orientation,
          set_first_orientation]
    | cons c rest ih =>
        intro hn hm
        cases c with
        | scaling sc => simp [has_scaling] at hn
        | axId => simp at hm
        | otherAxChild =>
            simp only [List.cons_append, has_scaling, List.any_cons,
              Bool.or_eq_false_iff] at hn
            simp only [List.mem_cons, not_or] at hm
            simp [insert_scaling, ih hn.2 hm.2]
  rw [inject_val_ax, if_neg (by simp [hno]), hins pre hno hpre]

/-- C8: the chart axis flip is a no-op unless the bar direction is `"bar"`;
for a horizontal bar chart with a value axis it sets the value-axis
orientation to reversed (`maxMin`), inserting the scaling element right
before the axis-id element when it is missing; and the whole injection is
idempotent (re-running sets the same value and duplicates nothing). -/
theorem bar_chart_axis_flip :
    (∀ chart : ChartPart, is_horizontal_bar chart = false →
      inject_bar_flip chart = chart) ∧
    (∀ (chart : ChartPart) (cs : List ValAxChild), is_horizontal_bar chart = true →
      chart.valAx = some cs →
      (inject_bar_flip chart).valAx = some (inject_val_ax cs) ∧
      first_orientation_val (inject_val_ax cs) = some (some "maxMin")) ∧
    (∀ pre post : List ValAxChild, has_scaling (pre ++ .axId :: post) = false →
      ValAxChild.axId ∉ pre →
      inject_val_ax (pre ++ .axId :: post) =
        pre ++ .scaling [.orientation (some "maxMin")] :: .axId :: post) ∧
    (∀ chart : ChartPart, inject_bar_flip (inject_bar_flip chart) =
      inject_bar_flip chart) := by
  refine ⟨?_, ?_, insert_scaling_before_axid, ?_⟩
  · intro chart h
    simp [inject_bar_flip, h]
  · intro chart cs h hval
    refine ⟨?_, fov_inject_val_ax cs⟩
    simp [inject_bar_flip, h, hval]
  · intro chart
    cases h : is_horizontal_bar chart with
    | false => simp [inject_bar_flip, h]
    | true =>
        have h2 : is_horizontal_bar { chart with valAx := chart.valAx.map inject_val_ax } =
            true := by
          simpa [is_horizontal_bar] using h
        simp [inject_bar_flip, h, h2]
        cases chart.valAx with
        | none => rfl
        | some cs => simp [inject_val_ax_idem]

/-- C8 witness: a horizontal bar chart whose value axis is `[other, axId]`
gains `scaling[orientation maxMin]` before the axis id, and a `"col"` chart
is untouched. -/
theorem bar_chart_axis_flip_witness :
    inject_val_ax [ValAxChild.otherAxChild, ValAxChild.axId] =
      [ValAxChild.otherAxChild, .scaling [.orientation (some "maxMin")], .axId] ∧
    first_orientation_val (inject_val_ax [ValAxChild.otherAxChild, ValAxChild.axId]) =
      some (some "maxMin") ∧
    inject_bar_flip ⟨some ⟨some "col"⟩, some [ValAxChild.axId]⟩ =
      ⟨some ⟨some "col"⟩, some [ValAxChild.axId]⟩ :=
  ⟨bar_chart_axis_flip.2.2.1 [ValAxChild.otherAxChild] [] (by decide) (by decide),
   (bar_chart_axis_flip.2.1 ⟨some ⟨some "bar"⟩,
      some [ValAxChild.otherAxChild, ValAxChild.axId]⟩
      [ValAxChild.otherAxChild, ValAxChild.axId] (by decide) rfl).2,
   bar_chart_axis_flip.1 ⟨some ⟨some "col"⟩, some [ValAxChild.axId]⟩ (by decide)⟩

/-- Processing a `p:sp` with a full transform: the x is mirrored, `flipH` is
forced to 1 exactly when the classifier flips, the text body is rewritten. -/
theorem process_sp_full (cfg : EngineConfig) (sw so : Int) (c : Option CNvPr)
    (x y w h : Int) (f : Bool) (g : Option String) (tb : Option TxBody) :
    process_elem cfg sw so (.sp c (some ⟨some (x, y), some (w, h), f⟩) g tb) =
      .sp c (some ⟨some (mirror_x x w sw so, y), some (w, h),
          f || should_flip_shape cfg tb g ⟨x, y, w, h⟩ (element_name c)⟩)
        g (tb.map process_text_body) := by
  cases hf : should_flip_shape cfg tb g ⟨x, y, w, h⟩ (element_name c) <;>
    simp [process_elem, get_bounding_box, set_offset_x, set_flip_h, hf]

/-- Processing a `p:pic` with a full transform: position mirrored, `flipH`
untouched. -/
theorem process_pic_full (cfg : EngineConfig) (sw so : Int) (c : Option CNvPr)
    (x y w h : Int) (f : Bool) :
    process_elem cfg sw so (.pic c (some ⟨some (x, y), some (w, h), f⟩)) =
      .pic c (some ⟨some (mirror_x x w sw so, y), some (w, h), f⟩) := by
  simp [process_elem, get_bounding_box, set_offset_x]

/-- Processing a `p:cxnSp` with a full transform (connector flipping on):
position mirrored, `flipH` toggled. -/
theorem process_cxn_full (cfg : EngineConfig) (sw so : Int)
    (x y w h : Int) (f : Bool) (hfc : cfg.flip_connectors = true) :
    process_elem cfg sw so (.cxnSp (some ⟨some (x, y), some (w, h), f⟩)) =
      .cxnSp (some ⟨some (mirror_x x w sw so, y), some (w, h), !f⟩) := by
  simp [process_elem, hfc, get_bounding_box, set_offset_x, toggle_flip_h]

/-- The child coordinate space depends only on `chOff`/`chExt` and the passed
group width, not on the group's own box. -/
theorem child_space_eq (o1 o2 e1 e2 : Option (Int × Int)) (co : Option Int)
    (ce : Option (Option Int)) (f1 f2 : Bool) (w : Int) :
    child_space ⟨o1, e1, co, ce, f1⟩ w = child_space ⟨o2, e2, co, ce, f2⟩ w := by
  cases co <;> cases ce <;> rfl

/-- Processing a `p:grpSp` with a full transform: own box mirrored in the
given space, children processed in the child space. -/
theorem process_grp_full (cfg : EngineConfig) (sw so : Int)
    (x y w h : Int) (gco : Option Int) (gce : Option (Option Int)) (gf : Bool)
    (ch : List ShapeElem) :
    process_elem cfg sw so (.grpSp (some ⟨some (x, y), some (w, h), gco, gce, gf⟩) ch) =
      .grpSp (some ⟨some (mirror_x x w sw so, y), some (w, h), gco, gce, gf⟩)
        (process_container cfg
          (child_space ⟨some (x, y), some (w, h), gco, gce, gf⟩ w).1
          (child_space ⟨some (x, y), some (w, h), gco, gce, gf⟩ w).2 ch) := by
  simp [process_elem]

/-- Processing a `p:graphicFrame` with a full transform: position mirrored,
tables rewritten according to the uri, `flipH` untouched. -/
theorem process_frame_full (cfg : EngineConfig) (sw so : Int)
    (x y w h : Int) (f : Bool) (uri : String) (table : Option Table) :
    process_elem cfg sw so (.graphicFrame (some ⟨some (x, y), some (w, h), f⟩) uri table) =
      .graphicFrame (some ⟨some (mirror_x x w sw so, y), some (w, h), f⟩) uri
        (if strContains uri "chart" then table
         else if strContains uri "table" then table.map process_table
         else table) := by
  simp [process_elem]

mutual

/-- Processing an element twice in the same coordinate space restores every
`x` position and every connector flip state of its subtree. -/
theorem geom_roundtrip_elem (cfg : EngineConfig) (sw so : Int) (e : ShapeElem) :
    xs_of_elem (process_elem cfg sw so (process_elem cfg sw so e)) = xs_of_elem e ∧
    cxn_flips_of_elem (process_elem cfg sw so (process_elem cfg sw so e)) =
      cxn_flips_of_elem e := by
  match e with
  | .sp c xf g tb =>
      match xf with
      | none => exact ⟨by simp [process_elem, get_bounding_box], rfl⟩
      | some ⟨none, ext, f⟩ =>
          cases ext <;> exact ⟨by simp [process_elem, get_bounding_box], rfl⟩
      | some ⟨some (x, y), none, f⟩ =>
          exact ⟨by simp [process_elem, get_bounding_box], rfl⟩
      | some ⟨some (x, y), some (w, h), f⟩ =>
          rw [process_sp_full, process_sp_full]
          refine ⟨?_, rfl⟩
          simp [xs_of_elem, xfrm_x, mirror_involution]
  | .pic c xf =>
      match xf with
      | none => exact ⟨by simp [process_elem, get_bounding_box], rfl⟩
      | some ⟨none, ext, f⟩ =>
          cases ext <;> exact ⟨by simp [process_elem, get_bounding_box], rfl⟩
      | some ⟨some (x, y), none, f⟩ =>
          exact ⟨by simp [process_elem, get_bounding_box], rfl⟩
      | some ⟨some (x, y), some (w, h), f⟩ =>
          rw [process_pic_full, process_pic_full]
          exact ⟨by simp [xs_of_elem, xfrm_x, mirror_involution], rfl⟩
  | .cxnSp xf =>
      cases hfc : cfg.flip_connectors with
      | false => exact ⟨by simp [process_elem, hfc], by simp [process_elem, hfc]⟩
      | true =>
          match xf with
          | none => exact ⟨by simp [process_elem, hfc, get_bounding_box],
              by simp [process_elem, hfc, get_bounding_box]⟩
          | some ⟨none, ext, f⟩ =>
              cases ext <;> exact ⟨by simp [process_elem, hfc, get_bounding_box],
                by simp [process_elem, hfc, get_bounding_box]⟩
          | some ⟨some (x, y), none, f⟩ =>
              exact ⟨by simp [process_elem, hfc, get_bounding_box],
                by simp [process_elem, hfc, get_bounding_box]⟩
          | some ⟨some (x, y), some (w, h), f⟩ =>
              rw [process_cxn_full cfg sw so x y w h f hfc,
                process_cxn_full cfg sw so _ y w h (!f) hfc]
              exact ⟨by simp [xs_of_elem, xfrm_x, mirror_involution],
                by simp [cxn_flips_of_elem]⟩
  | .grpSp xf ch =>
      match xf with
      | none => exact ⟨rfl, rfl⟩
      | some ⟨none, ge, gco, gce, gf⟩ =>
          cases ge <;> exact ⟨by simp [process_elem], by simp [process_elem]⟩
      | some ⟨some (x, y), none, gco, gce, gf⟩ =>
          exact ⟨by simp [process_elem], by simp [process_elem]⟩
      | some ⟨some (x, y), some (w, h), gco, gce, gf⟩ =>
          rw [process_grp_full, process_grp_full,
            child_space_eq (some (mirror_x x w sw so, y)) (some (x, y))
              (some (w, h)) (some (w, h)) gco gce gf gf w]
          have hch := geom_roundtrip_list cfg
            (child_space ⟨some (x, y), some (w, h), gco, gce, gf⟩ w).1
            (child_space ⟨some (x, y), some (w, h), gco, gce, gf⟩ w).2 ch
          refine ⟨?_, ?_⟩
          · simp [xs_of_elem, grp_xfrm_x, mirror_involution, hch.1]
          · simp [cxn_flips_of_elem, hch.2]
  | .graphicFrame xf uri table =>
      match xf with
      | none => exact ⟨rfl, rfl⟩
      | some ⟨none, ext, f⟩ =>
          cases ext <;> exact ⟨by simp [process_elem], by simp [process_elem]⟩
      | some ⟨some (x, y), none, f⟩ =>
          exact ⟨by simp [process_elem], by simp [process_elem]⟩
      | some ⟨some (x, y), some (w, h), f⟩ =>
          rw [process_frame_full, process_frame_full]
          exact ⟨by simp [xs_of_elem, xfrm_x, mirror_involution], rfl⟩

/-- Processing a forest twice in the same coordinate space restores every `x`
position and every connector flip state. -/
theorem geom_roundtrip_list (cfg : EngineConfig) (sw so : Int) (l : List ShapeElem) :
    xs_of_list (process_container cfg sw so (process_container cfg sw so l)) =
      xs_of_list l ∧
    cxn_flips_of_list (process_container cfg sw so (process_container cfg sw so l)) =
      cxn_flips_of_list l := by
  match l with
  | [] => exact ⟨rfl, rfl⟩
  | e :: es =>
      have he := geom_roundtrip_elem cfg sw so e
      have hes := geom_roundtrip_list cfg sw so es
      refine ⟨?_, ?_⟩
      · simp only [process_container, xs_of_list]
        rw [he.1, hes.1]
      · simp only [process_container, cxn_flips_of_list]
        rw [he.2, hes.2]

end

/-- C10 counterexample: a textless chevron shape of width 3,000,000 at `x=0`
starts with `flipH = 0`; after running the transform twice its `flipH` is 1
— the transform restores the x position but not the horizontal-flip state. -/
theorem transform_twice_flip_counterexample :
    flips_of_list (transform default_engine_config (transform default_engine_config
      [.sp (some ⟨"4", "Shape 4"⟩) (some ⟨some (0, 0), some (3000000, 1000000), false⟩)
        (some "chevron") none])) = [some true] ∧
    flips_of_list
      [.sp (some ⟨"4", "Shape 4"⟩) (some ⟨some (0, 0), some (3000000, 1000000), false⟩)
        (some "chevron") none] = [some false] ∧
    xs_of_list (transform default_engine_config (transform default_engine_config
      [.sp (some ⟨"4", "Shape 4"⟩) (some ⟨some (0, 0), some (3000000, 1000000), false⟩)
        (some "chevron") none])) = [some 0] := by
  decide

/-- C10 (amended): re-running the geometry transform on an already-mirrored
tree with the same coordinate space restores every shape's original `x`
position and every connector's original flip state; the horizontal-flip flag
of non-connector shapes is only ever set (never cleared), so it is not
restored for shapes the classifier flips. -/
theorem transform_twice_restores_positions (cfg : EngineConfig)
    (tree : List ShapeElem) :
    xs_of_list (transform cfg (transform cfg tree)) = xs_of_list tree ∧
    cxn_flips_of_list (transform cfg (transform cfg tree)) =
      cxn_flips_of_list tree :=
  geom_roundtrip_list cfg cfg.slide_width 0 tree

end PptTranslator
